import Mathlib

/-!
Verification of the `safe_printf` demonstration program
(`src/safe_printf/main.cpp`).

The program has three parts, shallowly embedded here:

* `ValidateArgument` — the SFINAE-selected normalizer overloads: an
  integral value is returned as a `long`, a floating-point value as a
  `double`, a pointer unchanged, and a `std::string` as the `const char*`
  returned by `c_str()`.
* `check_printf` — the recursive scanner that walks the format string and
  checks each directive against the type of its corresponding (already
  normalized) argument, throwing `std::runtime_error` on a fault.
* `safe_printf` — runs `check_printf` on the normalized arguments and,
  when that returns, delegates to the C library `printf`.

Format templates are embedded as `List Char` (the C string without its
NUL terminator; reading the terminator in the C++ scan corresponds to
reaching `[]`).  The distinct `std::runtime_error` messages thrown by the
C++ code are embedded as the constructors of `Err`.
-/

namespace SafePrintf

/-- A normalized argument, as produced by the `ValidateArgument`
overloads: exactly the types `check_printf` can be instantiated with
after normalization.  `longArg` is a C `long` (the integral overload's
return type), `doubleArg` a `double`, `charPtr` a `const char*` carried
together with the characters it points to, and `otherPtr` any other
pointer, carried as its address. -/
inductive Arg where
| longArg (v : Int)
| doubleArg (v : Rat)
| charPtr (s : List Char)
| otherPtr (addr : Nat)
deriving DecidableEq

/-- Embedding of `std::is_floating_point<T>::value` for the normalized
argument types: true exactly for `double`. -/
def isFloatingPoint : Arg → Bool
| .doubleArg _ => true
| _ => false

/-- Embedding of `std::is_integral<T>::value` for the normalized argument
types: true exactly for `long`. -/
def isIntegral : Arg → Bool
| .longArg _ => true
| _ => false

/-- Text-like category: a `const char*` (what the spec calls the Text
category after normalization; a `std::string` normalizes to this). -/
def isText : Arg → Bool
| .charPtr _ => true
| _ => false

/-- Embedding of `std::is_object<char*>::value`: `char*` is an object
type, so this is the constant `true`. -/
def isObjectCharPtrT : Bool := true

/-- Embedding of `std::is_object<std::string>::value`: `std::string` is
an object type, so this is the constant `true`. -/
def isObjectStdString : Bool := true

/-- The distinct `std::runtime_error` conditions thrown by
`check_printf`, one constructor per message string in the source:
`"Bad format"`, `"Parameter is not floating point!"`,
`"Parameter is not integral"`, `"Non-string parameter"`,
`"Invalid format character"`. -/
inductive Err where
| badFormat
| notFloatingPoint
| notIntegral
| nonString
| invalidFormatChar
deriving DecidableEq

/-- The mismatch conditions of the spec's `DirectiveArgumentMismatch`
class: the `"Parameter is not ..."` / `"Non-string parameter"` throws, as
opposed to `UnrecognizedDirective` (`invalidFormatChar`) and the base
scan's generic `badFormat`. -/
def isMismatchErr : Err → Bool
| .notFloatingPoint => true
| .notIntegral => true
| .nonString => true
| _ => false

/-- Embedding of the recursion base case `check_printf(const char* f)`:
scan the rest of the template with no arguments left.  A literal
character, or a `%%` pair, is skipped; any other character after a `%`
(including the NUL terminator read by `*++f` when `%` ends the string,
i.e. the `'%' :: []` pattern) throws `"Bad format"`. -/
def checkBase : List Char → Except Err Unit
| [] => .ok ()
| c :: rest =>
  if c ≠ '%' then checkBase rest
  else
    match rest with
    | [] => .error .badFormat
    | c2 :: rest2 => if c2 = '%' then checkBase rest2 else .error .badFormat

/-- Embedding of `check_printf`.  With no arguments left it is the base
overload `checkBase`.  Otherwise it is the variadic overload: walk the
template; on `%` not followed by `%`, switch on the conversion character
(`*++f`; the `'%' :: []` pattern is the switch reading the NUL
terminator, which falls to the `default` case) and test the leading
argument's type traits, then recurse past the directive with the
remaining arguments.  Reaching the end of the template with arguments
still unconsumed falls out of the loop and returns normally. -/
def check_printf : List Char → List Arg → Except Err Unit
| f, [] => checkBase f
| [], _ :: _ => .ok ()
| c :: rest, t :: ts =>
  if c ≠ '%' then check_printf rest (t :: ts)
  else
    match rest with
    | [] => .error .invalidFormatChar
    | c2 :: rest2 =>
      if c2 = '%' then check_printf rest2 (t :: ts)
      else
        match c2 with
        | 'f' => if !(isFloatingPoint t) then .error .notFloatingPoint
                 else check_printf rest2 ts
        | 'g' => if !(isFloatingPoint t) then .error .notFloatingPoint
                 else check_printf rest2 ts
        | 'd' => if !(isIntegral t) then .error .notIntegral
                 else check_printf rest2 ts
        | 's' => if !isObjectCharPtrT || !isObjectStdString then .error .nonString
                 else check_printf rest2 ts
        | _ => .error .invalidFormatChar

/-- Decimal rendering of a C `long`, as `printf`'s `%d` produces it. -/
def renderLong (n : Int) : List Char := (toString n).data

/-- Stand-in rendering of a `double` for `%f`/`%g`.  The exact digits the
platform produces are irrelevant to every claim; the model only needs a
deterministic function of the value. -/
def renderDouble (v : Rat) : List Char :=
  (toString v.num).data ++ '/' :: (toString v.den).data

/-- Model of the underlying platform routine `printf` on the directive
subset the program uses: literal characters are copied, `%%` emits `%`,
`%d` formats a `long`, `%s` prints the characters a `char*` points to,
`%f`/`%g` format a `double`, and excess arguments beyond the template's
directives are evaluated but ignored (C11 7.21.6.1/2).  `none` models the
undefined behavior of a malformed template or of a directive whose
argument has the wrong type. -/
def printfModel : List Char → List Arg → Option (List Char)
| [], _ => some []
| '%' :: [], _ => none
| '%' :: '%' :: r, args => Option.map (fun t => '%' :: t) (printfModel r args)
| '%' :: 'd' :: r, .longArg n :: as =>
  Option.map (fun t => renderLong n ++ t) (printfModel r as)
| '%' :: 's' :: r, .charPtr s :: as =>
  Option.map (fun t => s ++ t) (printfModel r as)
| '%' :: 'f' :: r, .doubleArg v :: as =>
  Option.map (fun t => renderDouble v ++ t) (printfModel r as)
| '%' :: 'g' :: r, .doubleArg v :: as =>
  Option.map (fun t => renderDouble v ++ t) (printfModel r as)
| '%' :: _ :: _, _ => none
| c :: r, args => Option.map (fun t => c :: t) (printfModel r args)

/-- A caller-supplied argument before normalization: a value of one of
the C++ types the `ValidateArgument` overloads accept.  `intRaw` is a
value of an integral type of the given bit width and signedness (the
model covers the standard widths; `float`/`double` values are carried
exactly as rationals; the x87 `long double` is outside the model).
`stringRaw` is a `std::string` carried as its character data. -/
inductive RawArg where
| intRaw (width : Nat) (sgn : Bool) (v : Int)
| floatRaw (isDouble : Bool) (v : Rat)
| charPtrRaw (s : List Char)
| otherPtrRaw (addr : Nat)
| stringRaw (s : List Char)
deriving DecidableEq

/-- Whether `v` is a value of the integral type of bit width `width` and
signedness `sgn` (two's complement). -/
def intFits (width : Nat) (sgn : Bool) (v : Int) : Bool :=
  if sgn then decide (-(2 ^ (width - 1)) ≤ v ∧ v < 2 ^ (width - 1))
  else decide (0 ≤ v ∧ v < 2 ^ width)

/-- Conversion of an integral value to `long` (LP64: 64-bit two's
complement), i.e. reduction into `[-2^63, 2^63)` modulo
`2^64 = 18446744073709551616`, the behavior of the implicit conversion in
`return arg;` of the integral `ValidateArgument` overload. -/
def toLong (v : Int) : Int := Int.bmod v 18446744073709551616

/-- Embedding of the `ValidateArgument` overload set: an integral value
is converted to `long`, a floating-point value to `double` (exact for
`float` and `double` values), a pointer is returned unchanged, and a
`std::string` becomes the `const char*` to its character data
(`str.c_str()`). -/
def ValidateArgument : RawArg → Arg
| .intRaw _ _ v => .longArg (toLong v)
| .floatRaw _ v => .doubleArg v
| .charPtrRaw s => .charPtr s
| .otherPtrRaw a => .otherPtr a
| .stringRaw s => .charPtr s

/-- Embedding of `safe_printf`: normalize every argument with
`ValidateArgument`, run `check_printf` on the result — a throw
propagates, producing no output — and otherwise delegate to `printf`
with the same template and the same normalized arguments. -/
def safe_printf (f : List Char) (ts : List RawArg) : Except Err (Option (List Char)) :=
  match check_printf f (ts.map ValidateArgument) with
  | .error e => .error e
  | .ok () => .ok (printfModel f (ts.map ValidateArgument))

/-- The directive kinds the scanner recognizes: floating point (`%f`,
`%g`), integral (`%d`), string (`%s`). -/
inductive Kind where
| floatK
| intK
| strK
deriving DecidableEq

/-- The directive-kind sequence of a template, following the scanner's
walk: `%%` is an escape contributing nothing, a recognized conversion
character contributes its kind, and an unrecognized conversion character
or a trailing lone `%` makes the template malformed (`none`). -/
def parseDirs : List Char → Option (List Kind)
| [] => some []
| '%' :: [] => none
| '%' :: '%' :: r => parseDirs r
| '%' :: 'f' :: r => Option.map (fun ks => Kind.floatK :: ks) (parseDirs r)
| '%' :: 'g' :: r => Option.map (fun ks => Kind.floatK :: ks) (parseDirs r)
| '%' :: 'd' :: r => Option.map (fun ks => Kind.intK :: ks) (parseDirs r)
| '%' :: 's' :: r => Option.map (fun ks => Kind.strK :: ks) (parseDirs r)
| '%' :: _ :: _ => none
| _ :: r => parseDirs r

/-- The number of directives in a template, `%%` escapes excluded,
counted along the scanner's walk (a trailing lone `%` is not a
directive). -/
def countDirectives : List Char → Nat
| [] => 0
| '%' :: [] => 0
| '%' :: '%' :: r => countDirectives r
| '%' :: _ :: r => 1 + countDirectives r
| _ :: r => countDirectives r

/-- Whether the template, read along the scanner's walk, contains a `%`
followed by a conversion character outside `{f, g, d, s, %}`. -/
def containsBadDirective : List Char → Bool
| [] => false
| '%' :: [] => false
| '%' :: '%' :: r => containsBadDirective r
| '%' :: c :: r =>
  if c = 'f' ∨ c = 'g' ∨ c = 'd' ∨ c = 's' then containsBadDirective r else true
| _ :: r => containsBadDirective r

/-- Whether the template ends in a single unescaped `%`: along the
scanner's walk, the final character is a `%` that begins a directive, so
the scan's `*++f` reads the NUL terminator as the conversion
character. -/
def hasTrailingLonePercent : List Char → Bool
| [] => false
| '%' :: [] => true
| '%' :: _ :: r => hasTrailingLonePercent r
| _ :: r => hasTrailingLonePercent r

/-- Whether the template consists of literal text and `%%` escapes only
(no directives, no trailing lone `%`). -/
def literalOnly : List Char → Bool
| [] => true
| '%' :: '%' :: r => literalOnly r
| '%' :: _ => false
| _ :: r => literalOnly r

/-- The template with each `%%` escape replaced by a single `%`. -/
def unescape : List Char → List Char
| [] => []
| '%' :: '%' :: r => '%' :: unescape r
| c :: r => c :: unescape r

/-- The spec's exact kind/category correspondence: a floating-point
directive takes a floating-point-category argument, an integral directive
an integral-category argument, and a string directive a text-category
argument. -/
def kindMatchesArg : Kind → Arg → Bool
| .floatK, a => isFloatingPoint a
| .intK, a => isIntegral a
| .strK, a => isText a

/-- Pointwise exact match of a directive-kind sequence against an
argument sequence of the same length. -/
def kindsMatch : List Kind → List Arg → Bool
| [], [] => true
| k :: ks, a :: as => kindMatchesArg k a && kindsMatch ks as
| _, _ => false

/-- A directive/argument pair the scanner's switch actually rejects: an
integral directive with a non-integral argument, or a floating-point
directive with a non-floating-point argument.  (The `%s` case of the
switch rejects nothing; see `isObjectCharPtrT`.) -/
def badPair (p : Kind × Arg) : Bool :=
  (p.1 == Kind.intK && !(isIntegral p.2)) || (p.1 == Kind.floatK && !(isFloatingPoint p.2))

instance {ε α : Type} [DecidableEq ε] [DecidableEq α] : DecidableEq (Except ε α) := fun a b =>
  match a, b with
  | .ok x, .ok y => if h : x = y then .isTrue (by rw [h]) else .isFalse (by simp [h])
  | .error x, .error y => if h : x = y then .isTrue (by rw [h]) else .isFalse (by simp [h])
  | .ok _, .error _ => .isFalse (by simp)
  | .error _, .ok _ => .isFalse (by simp)

theorem check_printf_nilArgs (f : List Char) : check_printf f [] = checkBase f := by
  cases f <;> rfl

theorem check_printf_nilFmt (t : Arg) (ts : List Arg) :
    check_printf [] (t :: ts) = .ok () := rfl

theorem check_printf_cons (c : Char) (rest : List Char) (t : Arg) (ts : List Arg)
    (h : c ≠ '%') : check_printf (c :: rest) (t :: ts) = check_printf rest (t :: ts) := by
  rw [check_printf.eq_def]
  simp [h]

theorem check_printf_lone (t : Arg) (ts : List Arg) :
    check_printf ['%'] (t :: ts) = .error .invalidFormatChar := rfl

theorem check_printf_escape (rest2 : List Char) (t : Arg) (ts : List Arg) :
    check_printf ('%' :: '%' :: rest2) (t :: ts) = check_printf rest2 (t :: ts) := by
  rw [check_printf.eq_def]
  simp

theorem check_printf_dirF (rest2 : List Char) (t : Arg) (ts : List Arg) :
    check_printf ('%' :: 'f' :: rest2) (t :: ts) =
      if isFloatingPoint t then check_printf rest2 ts else .error .notFloatingPoint := by
  rw [check_printf.eq_def]
  cases h : isFloatingPoint t <;> simp [h]

theorem check_printf_dirG (rest2 : List Char) (t : Arg) (ts : List Arg) :
    check_printf ('%' :: 'g' :: rest2) (t :: ts) =
      if isFloatingPoint t then check_printf rest2 ts else .error .notFloatingPoint := by
  rw [check_printf.eq_def]
  cases h : isFloatingPoint t <;> simp [h]

theorem check_printf_dirD (rest2 : List Char) (t : Arg) (ts : List Arg) :
    check_printf ('%' :: 'd' :: rest2) (t :: ts) =
      if isIntegral t then check_printf rest2 ts else .error .notIntegral := by
  rw [check_printf.eq_def]
  cases h : isIntegral t <;> simp [h]

theorem check_printf_dirS (rest2 : List Char) (t : Arg) (ts : List Arg) :
    check_printf ('%' :: 's' :: rest2) (t :: ts) = check_printf rest2 ts := by
  rw [check_printf.eq_def]
  simp [isObjectCharPtrT, isObjectStdString]

theorem check_printf_dirBad (c2 : Char) (rest2 : List Char) (t : Arg) (ts : List Arg)
    (h1 : c2 ≠ '%') (h2 : c2 ≠ 'f') (h3 : c2 ≠ 'g') (h4 : c2 ≠ 'd') (h5 : c2 ≠ 's') :
    check_printf ('%' :: c2 :: rest2) (t :: ts) = .error .invalidFormatChar := by
  rw [check_printf.eq_def]
  simp [h1, h2, h3, h4, h5]

theorem checkBase_cons (c : Char) (rest : List Char) (h : c ≠ '%') :
    checkBase (c :: rest) = checkBase rest := by
  rw [checkBase.eq_def]
  simp [h]

theorem checkBase_lone : checkBase ['%'] = .error .badFormat := rfl

theorem checkBase_escape (rest2 : List Char) :
    checkBase ('%' :: '%' :: rest2) = checkBase rest2 := by
  rw [checkBase.eq_def]
  simp

theorem checkBase_dir (c2 : Char) (rest2 : List Char) (h : c2 ≠ '%') :
    checkBase ('%' :: c2 :: rest2) = .error .badFormat := by
  rw [checkBase.eq_def]
  simp [h]

theorem countDirectives_cons (c : Char) (r : List Char) (h : c ≠ '%') :
    countDirectives (c :: r) = countDirectives r := by
  rw [countDirectives.eq_def]
  simp [h]

theorem countDirectives_escape (r : List Char) :
    countDirectives ('%' :: '%' :: r) = countDirectives r := by
  rw [countDirectives.eq_def]
  simp

theorem countDirectives_dir (c : Char) (r : List Char) (h : c ≠ '%') :
    countDirectives ('%' :: c :: r) = 1 + countDirectives r := by
  rw [countDirectives.eq_def]
  simp [h]

theorem containsBadDirective_cons (c : Char) (r : List Char) (h : c ≠ '%') :
    containsBadDirective (c :: r) = containsBadDirective r := by
  rw [containsBadDirective.eq_def]
  simp [h]

theorem containsBadDirective_escape (r : List Char) :
    containsBadDirective ('%' :: '%' :: r) = containsBadDirective r := by
  rw [containsBadDirective.eq_def]
  simp

theorem containsBadDirective_dir (c : Char) (r : List Char) (h : c ≠ '%') :
    containsBadDirective ('%' :: c :: r) =
      if c = 'f' ∨ c = 'g' ∨ c = 'd' ∨ c = 's' then containsBadDirective r else true := by
  rw [containsBadDirective.eq_def]
  simp [h]

theorem hasTrailingLonePercent_dir (c : Char) (r : List Char) :
    hasTrailingLonePercent ('%' :: c :: r) = hasTrailingLonePercent r := by
  rw [hasTrailingLonePercent.eq_def]
  simp

theorem hasTrailingLonePercent_cons (c : Char) (r : List Char) (h : c ≠ '%') :
    hasTrailingLonePercent (c :: r) = hasTrailingLonePercent r := by
  rw [hasTrailingLonePercent.eq_def]
  cases r <;> simp [h]

theorem literalOnly_escape (r : List Char) :
    literalOnly ('%' :: '%' :: r) = literalOnly r := by
  rw [literalOnly.eq_def]
  simp

theorem literalOnly_dir (c : Char) (r : List Char) (h : c ≠ '%') :
    literalOnly ('%' :: c :: r) = false := by
  rw [literalOnly.eq_def]
  simp [h]

theorem literalOnly_cons (c : Char) (r : List Char) (h : c ≠ '%') :
    literalOnly (c :: r) = literalOnly r := by
  rw [literalOnly.eq_def]
  cases r <;> simp [h]

theorem unescape_escape (r : List Char) :
    unescape ('%' :: '%' :: r) = '%' :: unescape r := by
  rw [unescape.eq_def]
  simp

theorem unescape_cons (c : Char) (r : List Char) (h : c ≠ '%') :
    unescape (c :: r) = c :: unescape r := by
  rw [unescape.eq_def]
  cases r <;> simp [h]

theorem printfModel_nil (args : List Arg) : printfModel [] args = some [] := rfl

theorem printfModel_cons (c : Char) (r : List Char) (args : List Arg) (h : c ≠ '%') :
    printfModel (c :: r) args = Option.map (fun t => c :: t) (printfModel r args) := by
  rw [printfModel.eq_def]
  cases args <;> cases r <;> simp [h]

theorem printfModel_escape (r : List Char) (args : List Arg) :
    printfModel ('%' :: '%' :: r) args = Option.map (fun t => '%' :: t) (printfModel r args) := by
  rw [printfModel.eq_def]
  simp

theorem printfModel_dirD (r : List Char) (n : Int) (as : List Arg) :
    printfModel ('%' :: 'd' :: r) (.longArg n :: as) =
      Option.map (fun t => renderLong n ++ t) (printfModel r as) := by
  rw [printfModel.eq_def]
  simp

theorem printfModel_dirS (r : List Char) (s : List Char) (as : List Arg) :
    printfModel ('%' :: 's' :: r) (.charPtr s :: as) =
      Option.map (fun t => s ++ t) (printfModel r as) := by
  rw [printfModel.eq_def]
  simp

theorem printfModel_dirF (r : List Char) (v : Rat) (as : List Arg) :
    printfModel ('%' :: 'f' :: r) (.doubleArg v :: as) =
      Option.map (fun t => renderDouble v ++ t) (printfModel r as) := by
  rw [printfModel.eq_def]
  simp

theorem printfModel_dirG (r : List Char) (v : Rat) (as : List Arg) :
    printfModel ('%' :: 'g' :: r) (.doubleArg v :: as) =
      Option.map (fun t => renderDouble v ++ t) (printfModel r as) := by
  rw [printfModel.eq_def]
  simp

theorem parseDirs_cons (c : Char) (r : List Char) (h : c ≠ '%') :
    parseDirs (c :: r) = parseDirs r := by
  rw [parseDirs.eq_def]
  cases r <;> simp [h]

/-- The base scan accepts exactly the templates made of literal text and
`%%` escapes; on any other template it throws `"Bad format"`. -/
theorem checkBase_eq (f : List Char) :
    checkBase f = if literalOnly f then .ok () else .error .badFormat := by
  induction f using checkBase.induct with
  | case1 => rfl
  | case2 c rest h ih => rw [checkBase_cons c rest h, literalOnly_cons c rest h, ih]
  | case3 c h =>
    simp only [ne_eq, not_not] at h
    subst h
    rfl
  | case4 c h rest2 ih =>
    simp only [ne_eq, not_not] at h
    subst h
    rw [checkBase_escape, literalOnly_escape, ih]
  | case5 c h c2 rest2 h2 =>
    simp only [ne_eq, not_not] at h
    subst h
    rw [checkBase_dir c2 rest2 h2, literalOnly_dir c2 rest2 h2]
    rfl

theorem literalOnly_percent (tail : List Char) (htail : ∀ r, tail = '%' :: r → False) :
    literalOnly ('%' :: tail) = false := by
  cases tail with
  | nil => rfl
  | cons c2 r2 =>
    have hc : c2 ≠ '%' := fun hcc => htail r2 (by rw [hcc])
    exact literalOnly_dir c2 r2 hc

/-- A literal-only template has no directives, no unrecognized directive
and no trailing lone percent. -/
theorem literalOnly_props (f : List Char) (h : literalOnly f = true) :
    countDirectives f = 0 ∧ containsBadDirective f = false ∧
      hasTrailingLonePercent f = false := by
  induction f using literalOnly.induct with
  | case1 => exact ⟨rfl, rfl, rfl⟩
  | case2 r ih =>
    rw [literalOnly_escape] at h
    rcases ih h with ⟨h1, h2, h3⟩
    rw [countDirectives_escape, containsBadDirective_escape,
      hasTrailingLonePercent_dir, h1, h2, h3]
    exact ⟨rfl, rfl, rfl⟩
  | case3 tail htail =>
    rw [literalOnly_percent tail htail] at h
    exact absurd h (by simp)
  | case4 c r h1 h2 ih =>
    have hc : c ≠ '%' := fun hcc => h2 hcc
    rw [literalOnly_cons c r hc] at h
    rcases ih h with ⟨g1, g2, g3⟩
    rw [countDirectives_cons c r hc, containsBadDirective_cons c r hc,
      hasTrailingLonePercent_cons c r hc]
    exact ⟨g1, g2, g3⟩

/-- A literal-only template passes the scan whatever the argument list:
the loop never meets a directive, so no test and no throw is reached. -/
theorem check_printf_literalOnly (f : List Char) :
    literalOnly f = true → ∀ args, check_printf f args = .ok () := by
  induction f using literalOnly.induct with
  | case1 => intro _ args; cases args <;> rfl
  | case2 r ih =>
    intro h args
    rw [literalOnly_escape] at h
    cases args with
    | nil =>
      rw [check_printf_nilArgs, checkBase_escape, ← check_printf_nilArgs]
      exact ih h []
    | cons t ts =>
      rw [check_printf_escape]
      exact ih h (t :: ts)
  | case3 tail htail =>
    intro h
    rw [literalOnly_percent tail htail] at h
    exact absurd h (by simp)
  | case4 c r h1 h2 ih =>
    intro h args
    have hc : c ≠ '%' := fun hcc => h2 hcc
    rw [literalOnly_cons c r hc] at h
    cases args with
    | nil =>
      rw [check_printf_nilArgs, checkBase_cons c r hc, ← check_printf_nilArgs]
      exact ih h []
    | cons t ts =>
      rw [check_printf_cons c r t ts hc]
      exact ih h (t :: ts)

/-- On a literal-only template with no arguments, the platform routine
copies the template, collapsing each `%%` to `%`. -/
theorem printfModel_literalOnly (f : List Char) :
    literalOnly f = true → printfModel f [] = some (unescape f) := by
  induction f using literalOnly.induct with
  | case1 => intro _; rfl
  | case2 r ih =>
    intro h
    rw [literalOnly_escape] at h
    rw [printfModel_escape, unescape_escape, ih h]
    rfl
  | case3 tail htail =>
    intro h
    rw [literalOnly_percent tail htail] at h
    exact absurd h (by simp)
  | case4 c r h1 h2 ih =>
    intro h
    have hc : c ≠ '%' := fun hcc => h2 hcc
    rw [literalOnly_cons c r hc] at h
    rw [printfModel_cons c r [] hc, unescape_cons c r hc, ih h]
    rfl

/-- More directives than arguments is always caught: the scan either
fails at a directive or runs out of arguments and the base overload
throws `"Bad format"` at the next directive. -/
theorem check_printf_arity :
    ∀ (f : List Char) (args : List Arg),
      countDirectives f > args.length → ∃ e, check_printf f args = .error e := by
  intro f args
  induction f, args using check_printf.induct with
  | case1 f =>
    intro h
    by_cases hl : literalOnly f = true
    · rcases literalOnly_props f hl with ⟨h1, _, _⟩
      rw [h1] at h
      exact absurd h (by simp)
    · exact ⟨.badFormat, by rw [check_printf_nilArgs, checkBase_eq, if_neg hl]⟩
  | case2 t ts =>
    intro h
    rw [show countDirectives [] = 0 from rfl] at h
    exact absurd h (by simp)
  | case3 c rest t ts hc ih =>
    intro h
    rw [countDirectives_cons c rest hc] at h
    rw [check_printf_cons c rest t ts hc]
    exact ih h
  | case4 c t ts hc =>
    simp only [ne_eq, not_not] at hc
    subst hc
    intro _
    exact ⟨.invalidFormatChar, check_printf_lone t ts⟩
  | case5 c t ts hc rest2 ih =>
    simp only [ne_eq, not_not] at hc
    subst hc
    intro h
    rw [countDirectives_escape] at h
    rw [check_printf_escape]
    exact ih h
  | case6 c t ts hc rest2 hfp hne =>
    simp only [ne_eq, not_not] at hc
    subst hc
    simp only [Bool.not_eq_eq_eq_not, Bool.not_true] at hfp
    intro _
    exact ⟨.notFloatingPoint, by rw [check_printf_dirF]; simp [hfp]⟩
  | case7 c t ts hc rest2 hfp hne ih =>
    simp only [ne_eq, not_not] at hc
    subst hc
    simp only [Bool.not_eq_true, Bool.not_eq_false'] at hfp
    intro h
    rw [countDirectives_dir 'f' rest2 (by decide), List.length_cons] at h
    rw [check_printf_dirF, if_pos hfp]
    exact ih (by omega)
  | case8 c t ts hc rest2 hfp hne =>
    simp only [ne_eq, not_not] at hc
    subst hc
    simp only [Bool.not_eq_eq_eq_not, Bool.not_true] at hfp
    intro _
    exact ⟨.notFloatingPoint, by rw [check_printf_dirG]; simp [hfp]⟩
  | case9 c t ts hc rest2 hfp hne ih =>
    simp only [ne_eq, not_not] at hc
    subst hc
    simp only [Bool.not_eq_true, Bool.not_eq_false'] at hfp
    intro h
    rw [countDirectives_dir 'g' rest2 (by decide), List.length_cons] at h
    rw [check_printf_dirG, if_pos hfp]
    exact ih (by omega)
  | case10 c t ts hc rest2 hint hne =>
    simp only [ne_eq, not_not] at hc
    subst hc
    simp only [Bool.not_eq_eq_eq_not, Bool.not_true] at hint
    intro _
    exact ⟨.notIntegral, by rw [check_printf_dirD]; simp [hint]⟩
  | case11 c t ts hc rest2 hint hne ih =>
    simp only [ne_eq, not_not] at hc
    subst hc
    simp only [Bool.not_eq_true, Bool.not_eq_false'] at hint
    intro h
    rw [countDirectives_dir 'd' rest2 (by decide), List.length_cons] at h
    rw [check_printf_dirD, if_pos hint]
    exact ih (by omega)
  | case12 c t ts hc rest2 hso hne =>
    simp [isObjectCharPtrT, isObjectStdString] at hso
  | case13 c t ts hc rest2 hso hne ih =>
    simp only [ne_eq, not_not] at hc
    subst hc
    intro h
    rw [countDirectives_dir 's' rest2 (by decide), List.length_cons] at h
    rw [check_printf_dirS]
    exact ih (by omega)
  | case14 c t ts hc c2 rest2 hp hf hg hd hs =>
    simp only [ne_eq, not_not] at hc
    subst hc
    intro _
    exact ⟨.invalidFormatChar, check_printf_dirBad c2 rest2 t ts hp hf hg hd hs⟩

theorem parseDirs_escape (r : List Char) : parseDirs ('%' :: '%' :: r) = parseDirs r := by
  rw [parseDirs.eq_def]
  simp

theorem parseDirs_dirF (r : List Char) :
    parseDirs ('%' :: 'f' :: r) = Option.map (fun ks => Kind.floatK :: ks) (parseDirs r) := by
  rw [parseDirs.eq_def]
  simp

theorem parseDirs_dirG (r : List Char) :
    parseDirs ('%' :: 'g' :: r) = Option.map (fun ks => Kind.floatK :: ks) (parseDirs r) := by
  rw [parseDirs.eq_def]
  simp

theorem parseDirs_dirD (r : List Char) :
    parseDirs ('%' :: 'd' :: r) = Option.map (fun ks => Kind.intK :: ks) (parseDirs r) := by
  rw [parseDirs.eq_def]
  simp

theorem parseDirs_dirS (r : List Char) :
    parseDirs ('%' :: 's' :: r) = Option.map (fun ks => Kind.strK :: ks) (parseDirs r) := by
  rw [parseDirs.eq_def]
  simp

theorem parseDirs_dirBad (c : Char) (r : List Char) (h1 : c ≠ '%') (h2 : c ≠ 'f')
    (h3 : c ≠ 'g') (h4 : c ≠ 'd') (h5 : c ≠ 's') : parseDirs ('%' :: c :: r) = none := by
  rw [parseDirs.eq_def]
  simp [h1, h2, h3, h4, h5]

/-- A template with an unrecognized conversion character is never
accepted by the scan, whatever the arguments. -/
theorem check_printf_badDirective :
    ∀ (f : List Char) (args : List Arg),
      containsBadDirective f = true → ∃ e, check_printf f args = .error e := by
  intro f args
  induction f, args using check_printf.induct with
  | case1 f =>
    intro h
    by_cases hl : literalOnly f = true
    · rcases literalOnly_props f hl with ⟨_, h2, _⟩
      rw [h2] at h
      exact absurd h (by simp)
    · exact ⟨.badFormat, by rw [check_printf_nilArgs, checkBase_eq, if_neg hl]⟩
  | case2 t ts =>
    intro h
    exact absurd h (by decide)
  | case3 c rest t ts hc ih =>
    intro h
    rw [containsBadDirective_cons c rest hc] at h
    rw [check_printf_cons c rest t ts hc]
    exact ih h
  | case4 c t ts hc =>
    simp only [ne_eq, not_not] at hc
    subst hc
    intro _
    exact ⟨.invalidFormatChar, check_printf_lone t ts⟩
  | case5 c t ts hc rest2 ih =>
    simp only [ne_eq, not_not] at hc
    subst hc
    intro h
    rw [containsBadDirective_escape] at h
    rw [check_printf_escape]
    exact ih h
  | case6 c t ts hc rest2 hfp hne =>
    simp only [ne_eq, not_not] at hc
    subst hc
    simp only [Bool.not_eq_eq_eq_not, Bool.not_true] at hfp
    intro _
    exact ⟨.notFloatingPoint, by rw [check_printf_dirF]; simp [hfp]⟩
  | case7 c t ts hc rest2 hfp hne ih =>
    simp only [ne_eq, not_not] at hc
    subst hc
    simp only [Bool.not_eq_true, Bool.not_eq_false'] at hfp
    intro h
    rw [containsBadDirective_dir 'f' rest2 (by decide), if_pos (by decide)] at h
    rw [check_printf_dirF, if_pos hfp]
    exact ih h
  | case8 c t ts hc rest2 hfp hne =>
    simp only [ne_eq, not_not] at hc
    subst hc
    simp only [Bool.not_eq_eq_eq_not, Bool.not_true] at hfp
    intro _
    exact ⟨.notFloatingPoint, by rw [check_printf_dirG]; simp [hfp]⟩
  | case9 c t ts hc rest2 hfp hne ih =>
    simp only [ne_eq, not_not] at hc
    subst hc
    simp only [Bool.not_eq_true, Bool.not_eq_false'] at hfp
    intro h
    rw [containsBadDirective_dir 'g' rest2 (by decide), if_pos (by decide)] at h
    rw [check_printf_dirG, if_pos hfp]
    exact ih h
  | case10 c t ts hc rest2 hint hne =>
    simp only [ne_eq, not_not] at hc
    subst hc
    simp only [Bool.not_eq_eq_eq_not, Bool.not_true] at hint
    intro _
    exact ⟨.notIntegral, by rw [check_printf_dirD]; simp [hint]⟩
  | case11 c t ts hc rest2 hint hne ih =>
    simp only [ne_eq, not_not] at hc
    subst hc
    simp only [Bool.not_eq_true, Bool.not_eq_false'] at hint
    intro h
    rw [containsBadDirective_dir 'd' rest2 (by decide), if_pos (by decide)] at h
    rw [check_printf_dirD, if_pos hint]
    exact ih h
  | case12 c t ts hc rest2 hso hne =>
    simp [isObjectCharPtrT, isObjectStdString] at hso
  | case13 c t ts hc rest2 hso hne ih =>
    simp only [ne_eq, not_not] at hc
    subst hc
    intro h
    rw [containsBadDirective_dir 's' rest2 (by decide), if_pos (by decide)] at h
    rw [check_printf_dirS]
    exact ih h
  | case14 c t ts hc c2 rest2 hp hf hg hd hs =>
    simp only [ne_eq, not_not] at hc
    subst hc
    intro _
    exact ⟨.invalidFormatChar, check_printf_dirBad c2 rest2 t ts hp hf hg hd hs⟩

/-- A template ending in a lone unescaped percent is never accepted by
the scan, whatever the arguments. -/
theorem check_printf_trailingPercent :
    ∀ (f : List Char) (args : List Arg),
      hasTrailingLonePercent f = true → ∃ e, check_printf f args = .error e := by
  intro f args
  induction f, args using check_printf.induct with
  | case1 f =>
    intro h
    by_cases hl : literalOnly f = true
    · rcases literalOnly_props f hl with ⟨_, _, h3⟩
      rw [h3] at h
      exact absurd h (by simp)
    · exact ⟨.badFormat, by rw [check_printf_nilArgs, checkBase_eq, if_neg hl]⟩
  | case2 t ts =>
    intro h
    exact absurd h (by decide)
  | case3 c rest t ts hc ih =>
    intro h
    rw [hasTrailingLonePercent_cons c rest hc] at h
    rw [check_printf_cons c rest t ts hc]
    exact ih h
  | case4 c t ts hc =>
    simp only [ne_eq, not_not] at hc
    subst hc
    intro _
    exact ⟨.invalidFormatChar, check_printf_lone t ts⟩
  | case5 c t ts hc rest2 ih =>
    simp only [ne_eq, not_not] at hc
    subst hc
    intro h
    rw [hasTrailingLonePercent_dir '%' rest2] at h
    rw [check_printf_escape]
    exact ih h
  | case6 c t ts hc rest2 hfp hne =>
    simp only [ne_eq, not_not] at hc
    subst hc
    simp only [Bool.not_eq_eq_eq_not, Bool.not_true] at hfp
    intro _
    exact ⟨.notFloatingPoint, by rw [check_printf_dirF]; simp [hfp]⟩
  | case7 c t ts hc rest2 hfp hne ih =>
    simp only [ne_eq, not_not] at hc
    subst hc
    simp only [Bool.not_eq_true, Bool.not_eq_false'] at hfp
    intro h
    rw [hasTrailingLonePercent_dir 'f' rest2] at h
    rw [check_printf_dirF, if_pos hfp]
    exact ih h
  | case8 c t ts hc rest2 hfp hne =>
    simp only [ne_eq, not_not] at hc
    subst hc
    simp only [Bool.not_eq_eq_eq_not, Bool.not_true] at hfp
    intro _
    exact ⟨.notFloatingPoint, by rw [check_printf_dirG]; simp [hfp]⟩
  | case9 c t ts hc rest2 hfp hne ih =>
    simp only [ne_eq, not_not] at hc
    subst hc
    simp only [Bool.not_eq_true, Bool.not_eq_false'] at hfp
    intro h
    rw [hasTrailingLonePercent_dir 'g' rest2] at h
    rw [check_printf_dirG, if_pos hfp]
    exact ih h
  | case10 c t ts hc rest2 hint hne =>
    simp only [ne_eq, not_not] at hc
    subst hc
    simp only [Bool.not_eq_eq_eq_not, Bool.not_true] at hint
    intro _
    exact ⟨.notIntegral, by rw [check_printf_dirD]; simp [hint]⟩
  | case11 c t ts hc rest2 hint hne ih =>
    simp only [ne_eq, not_not] at hc
    subst hc
    simp only [Bool.not_eq_true, Bool.not_eq_false'] at hint
    intro h
    rw [hasTrailingLonePercent_dir 'd' rest2] at h
    rw [check_printf_dirD, if_pos hint]
    exact ih h
  | case12 c t ts hc rest2 hso hne =>
    simp [isObjectCharPtrT, isObjectStdString] at hso
  | case13 c t ts hc rest2 hso hne ih =>
    simp only [ne_eq, not_not] at hc
    subst hc
    intro h
    rw [hasTrailingLonePercent_dir 's' rest2] at h
    rw [check_printf_dirS]
    exact ih h
  | case14 c t ts hc c2 rest2 hp hf hg hd hs =>
    simp only [ne_eq, not_not] at hc
    subst hc
    intro _
    exact ⟨.invalidFormatChar, check_printf_dirBad c2 rest2 t ts hp hf hg hd hs⟩

/-- Appending further arguments never turns an accepted call into a
rejected one: the scan stops at the end of the template and leaves any
unconsumed arguments unexamined. -/
theorem check_printf_append :
    ∀ (f : List Char) (args : List Arg), check_printf f args = .ok () →
      ∀ extra, check_printf f (args ++ extra) = .ok () := by
  intro f args
  induction f, args using check_printf.induct with
  | case1 f =>
    intro h extra
    rw [check_printf_nilArgs, checkBase_eq] at h
    by_cases hl : literalOnly f = true
    · rw [List.nil_append]
      exact check_printf_literalOnly f hl extra
    · rw [if_neg hl] at h
      exact absurd h (by simp)
  | case2 t ts =>
    intro _ extra
    rw [List.cons_append]
    exact check_printf_nilFmt t (ts ++ extra)
  | case3 c rest t ts hc ih =>
    intro h extra
    rw [check_printf_cons c rest t ts hc] at h
    rw [List.cons_append, check_printf_cons c rest t (ts ++ extra) hc, ← List.cons_append]
    exact ih h extra
  | case4 c t ts hc =>
    simp only [ne_eq, not_not] at hc
    subst hc
    intro h
    rw [check_printf_lone] at h
    exact absurd h (by simp)
  | case5 c t ts hc rest2 ih =>
    simp only [ne_eq, not_not] at hc
    subst hc
    intro h extra
    rw [check_printf_escape] at h
    rw [List.cons_append, check_printf_escape, ← List.cons_append]
    exact ih h extra
  | case6 c t ts hc rest2 hfp hne =>
    simp only [ne_eq, not_not] at hc
    subst hc
    simp only [Bool.not_eq_eq_eq_not, Bool.not_true] at hfp
    intro h
    rw [check_printf_dirF, if_neg (by simp [hfp])] at h
    exact absurd h (by simp)
  | case7 c t ts hc rest2 hfp hne ih =>
    simp only [ne_eq, not_not] at hc
    subst hc
    simp only [Bool.not_eq_true, Bool.not_eq_false'] at hfp
    intro h extra
    rw [check_printf_dirF, if_pos hfp] at h
    rw [List.cons_append, check_printf_dirF, if_pos hfp]
    exact ih h extra
  | case8 c t ts hc rest2 hfp hne =>
    simp only [ne_eq, not_not] at hc
    subst hc
    simp only [Bool.not_eq_eq_eq_not, Bool.not_true] at hfp
    intro h
    rw [check_printf_dirG, if_neg (by simp [hfp])] at h
    exact absurd h (by simp)
  | case9 c t ts hc rest2 hfp hne ih =>
    simp only [ne_eq, not_not] at hc
    subst hc
    simp only [Bool.not_eq_true, Bool.not_eq_false'] at hfp
    intro h extra
    rw [check_printf_dirG, if_pos hfp] at h
    rw [List.cons_append, check_printf_dirG, if_pos hfp]
    exact ih h extra
  | case10 c t ts hc rest2 hint hne =>
    simp only [ne_eq, not_not] at hc
    subst hc
    simp only [Bool.not_eq_eq_eq_not, Bool.not_true] at hint
    intro h
    rw [check_printf_dirD, if_neg (by simp [hint])] at h
    exact absurd h (by simp)
  | case11 c t ts hc rest2 hint hne ih =>
    simp only [ne_eq, not_not] at hc
    subst hc
    simp only [Bool.not_eq_true, Bool.not_eq_false'] at hint
    intro h extra
    rw [check_printf_dirD, if_pos hint] at h
    rw [List.cons_append, check_printf_dirD, if_pos hint]
    exact ih h extra
  | case12 c t ts hc rest2 hso hne =>
    simp [isObjectCharPtrT, isObjectStdString] at hso
  | case13 c t ts hc rest2 hso hne ih =>
    simp only [ne_eq, not_not] at hc
    subst hc
    intro h extra
    rw [check_printf_dirS] at h
    rw [List.cons_append, check_printf_dirS]
    exact ih h extra
  | case14 c t ts hc c2 rest2 hp hf hg hd hs =>
    simp only [ne_eq, not_not] at hc
    subst hc
    intro h
    rw [check_printf_dirBad c2 rest2 t ts hp hf hg hd hs] at h
    exact absurd h (by simp)

theorem kindsMatch_nil_cons (a : Arg) (as : List Arg) : kindsMatch [] (a :: as) = false := by
  rw [kindsMatch.eq_def]

theorem kindsMatch_cons_nil (k : Kind) (ks : List Kind) : kindsMatch (k :: ks) [] = false := by
  rw [kindsMatch.eq_def]

theorem kindsMatch_cons_cons (k : Kind) (ks : List Kind) (a : Arg) (as : List Arg) :
    kindsMatch (k :: ks) (a :: as) = (kindMatchesArg k a && kindsMatch ks as) := rfl

/-- A template whose directive kinds exactly match the argument
categories is accepted by the scan, and the platform routine formats it
successfully. -/
theorem check_printf_kindsMatch :
    ∀ (f : List Char) (ks : List Kind), parseDirs f = some ks →
      ∀ (args : List Arg), kindsMatch ks args = true →
        check_printf f args = .ok () ∧ ∃ out, printfModel f args = some out := by
  intro f
  induction f using parseDirs.induct with
  | case1 =>
    intro ks hks args hm
    have hks0 : ([] : List Kind) = ks := Option.some.inj hks
    subst hks0
    cases args with
    | nil => exact ⟨rfl, ⟨[], rfl⟩⟩
    | cons a as =>
      rw [kindsMatch_nil_cons] at hm
      exact absurd hm (by simp)
  | case2 =>
    intro ks hks args hm
    exact absurd hks (by simp [parseDirs])
  | case3 r ih =>
    intro ks hks args hm
    rw [parseDirs_escape] at hks
    cases args with
    | nil =>
      have hks0 : ks = [] := by
        cases ks with
        | nil => rfl
        | cons k ks2 =>
          rw [kindsMatch_cons_nil] at hm
          exact absurd hm (by simp)
      subst hks0
      refine ⟨?_, ?_⟩
      · rw [check_printf_nilArgs, checkBase_escape, ← check_printf_nilArgs]
        exact (ih [] hks [] rfl).1
      · rw [printfModel_escape]
        obtain ⟨out, ho⟩ := (ih [] hks [] rfl).2
        rw [ho]
        exact ⟨'%' :: out, rfl⟩
    | cons a as =>
      refine ⟨?_, ?_⟩
      · rw [check_printf_escape]
        exact (ih ks hks (a :: as) hm).1
      · rw [printfModel_escape]
        obtain ⟨out, ho⟩ := (ih ks hks (a :: as) hm).2
        rw [ho]
        exact ⟨'%' :: out, rfl⟩
  | case4 r ih =>
    intro ks hks args hm
    rw [parseDirs_dirF] at hks
    rcases Option.map_eq_some'.mp hks with ⟨ks2, hpd, hcons⟩
    subst hcons
    cases args with
    | nil =>
      rw [kindsMatch_cons_nil] at hm
      exact absurd hm (by simp)
    | cons a as =>
      rw [kindsMatch_cons_cons] at hm
      rw [Bool.and_eq_true] at hm
      have hma : isFloatingPoint a = true := by
        have := hm.1
        simpa [kindMatchesArg] using this
      have hmr : kindsMatch ks2 as = true := hm.2
      cases a with
      | doubleArg v =>
        refine ⟨?_, ?_⟩
        · rw [check_printf_dirF, if_pos hma]
          exact (ih ks2 hpd as hmr).1
        · rw [printfModel_dirF]
          obtain ⟨out, ho⟩ := (ih ks2 hpd as hmr).2
          rw [ho]
          exact ⟨renderDouble v ++ out, rfl⟩
      | longArg v => exact absurd hma (by simp [isFloatingPoint])
      | charPtr s => exact absurd hma (by simp [isFloatingPoint])
      | otherPtr p => exact absurd hma (by simp [isFloatingPoint])
  | case5 r ih =>
    intro ks hks args hm
    rw [parseDirs_dirG] at hks
    rcases Option.map_eq_some'.mp hks with ⟨ks2, hpd, hcons⟩
    subst hcons
    cases args with
    | nil =>
      rw [kindsMatch_cons_nil] at hm
      exact absurd hm (by simp)
    | cons a as =>
      rw [kindsMatch_cons_cons] at hm
      rw [Bool.and_eq_true] at hm
      have hma : isFloatingPoint a = true := by
        have := hm.1
        simpa [kindMatchesArg] using this
      have hmr : kindsMatch ks2 as = true := hm.2
      cases a with
      | doubleArg v =>
        refine ⟨?_, ?_⟩
        · rw [check_printf_dirG, if_pos hma]
          exact (ih ks2 hpd as hmr).1
        · rw [printfModel_dirG]
          obtain ⟨out, ho⟩ := (ih ks2 hpd as hmr).2
          rw [ho]
          exact ⟨renderDouble v ++ out, rfl⟩
      | longArg v => exact absurd hma (by simp [isFloatingPoint])
      | charPtr s => exact absurd hma (by simp [isFloatingPoint])
      | otherPtr p => exact absurd hma (by simp [isFloatingPoint])
  | case6 r ih =>
    intro ks hks args hm
    rw [parseDirs_dirD] at hks
    rcases Option.map_eq_some'.mp hks with ⟨ks2, hpd, hcons⟩
    subst hcons
    cases args with
    | nil =>
      rw [kindsMatch_cons_nil] at hm
      exact absurd hm (by simp)
    | cons a as =>
      rw [kindsMatch_cons_cons] at hm
      rw [Bool.and_eq_true] at hm
      have hma : isIntegral a = true := by
        have := hm.1
        simpa [kindMatchesArg] using this
      have hmr : kindsMatch ks2 as = true := hm.2
      cases a with
      | longArg v =>
        refine ⟨?_, ?_⟩
        · rw [check_printf_dirD, if_pos hma]
          exact (ih ks2 hpd as hmr).1
        · rw [printfModel_dirD]
          obtain ⟨out, ho⟩ := (ih ks2 hpd as hmr).2
          rw [ho]
          exact ⟨renderLong v ++ out, rfl⟩
      | doubleArg v => exact absurd hma (by simp [isIntegral])
      | charPtr s => exact absurd hma (by simp [isIntegral])
      | otherPtr p => exact absurd hma (by simp [isIntegral])
  | case7 r ih =>
    intro ks hks args hm
    rw [parseDirs_dirS] at hks
    rcases Option.map_eq_some'.mp hks with ⟨ks2, hpd, hcons⟩
    subst hcons
    cases args with
    | nil =>
      rw [kindsMatch_cons_nil] at hm
      exact absurd hm (by simp)
    | cons a as =>
      rw [kindsMatch_cons_cons] at hm
      rw [Bool.and_eq_true] at hm
      have hma : isText a = true := by
        have := hm.1
        simpa [kindMatchesArg] using this
      have hmr : kindsMatch ks2 as = true := hm.2
      cases a with
      | charPtr str =>
        refine ⟨?_, ?_⟩
        · rw [check_printf_dirS]
          exact (ih ks2 hpd as hmr).1
        · rw [printfModel_dirS]
          obtain ⟨out, ho⟩ := (ih ks2 hpd as hmr).2
          rw [ho]
          exact ⟨str ++ out, rfl⟩
      | longArg v => exact absurd hma (by simp [isText])
      | doubleArg v => exact absurd hma (by simp [isText])
      | otherPtr p => exact absurd hma (by simp [isText])
  | case8 head tail h1 h2 h3 h4 h5 =>
    intro ks hks args hm
    rw [parseDirs_dirBad head tail h1 h2 h3 h4 h5] at hks
    exact absurd hks (by simp)
  | case9 head r h1 h2 h3 h4 h5 h6 h7 ih =>
    intro ks hks args hm
    have hc : head ≠ '%' := by
      intro hh
      cases r with
      | nil => exact h1 hh rfl
      | cons x xs => exact h7 x xs hh rfl
    rw [parseDirs_cons head r hc] at hks
    cases args with
    | nil =>
      have hks0 : ks = [] := by
        cases ks with
        | nil => rfl
        | cons k ks2 =>
          rw [kindsMatch_cons_nil] at hm
          exact absurd hm (by simp)
      subst hks0
      refine ⟨?_, ?_⟩
      · rw [check_printf_nilArgs, checkBase_cons head r hc, ← check_printf_nilArgs]
        exact (ih [] hks [] rfl).1
      · rw [printfModel_cons head r [] hc]
        obtain ⟨out, ho⟩ := (ih [] hks [] rfl).2
        rw [ho]
        exact ⟨head :: out, rfl⟩
    | cons a as =>
      refine ⟨?_, ?_⟩
      · rw [check_printf_cons head r a as hc]
        exact (ih ks hks (a :: as) hm).1
      · rw [printfModel_cons head r (a :: as) hc]
        obtain ⟨out, ho⟩ := (ih ks hks (a :: as) hm).2
        rw [ho]
        exact ⟨head :: out, rfl⟩

/-- If the template parses to a directive-kind sequence of the same
length as the argument list, and some position pairs an integral or
floating-point directive with an argument of the wrong category, then the
scan throws one of the mismatch conditions. -/
theorem check_printf_mismatchAny :
    ∀ (f : List Char) (ks : List Kind), parseDirs f = some ks →
      ∀ (args : List Arg), ks.length = args.length →
        (ks.zip args).any badPair = true →
        ∃ e, check_printf f args = .error e ∧ isMismatchErr e = true := by
  intro f
  induction f using parseDirs.induct with
  | case1 =>
    intro ks hks args hlen hany
    have hks0 : ([] : List Kind) = ks := Option.some.inj hks
    subst hks0
    have hz : ([] : List Kind).zip args = [] := rfl
    rw [hz] at hany
    exact absurd hany (by simp)
  | case2 =>
    intro ks hks args hlen hany
    exact absurd hks (by simp [parseDirs])
  | case3 r ih =>
    intro ks hks args hlen hany
    rw [parseDirs_escape] at hks
    cases args with
    | nil =>
      rw [List.zip_nil_right] at hany
      exact absurd hany (by simp)
    | cons a as =>
      rcases ih ks hks (a :: as) hlen hany with ⟨e, he, hme⟩
      exact ⟨e, by rw [check_printf_escape]; exact he, hme⟩
  | case4 r ih =>
    intro ks hks args hlen hany
    rw [parseDirs_dirF] at hks
    rcases Option.map_eq_some'.mp hks with ⟨ks2, hpd, hcons⟩
    subst hcons
    cases args with
    | nil => exact absurd hlen (by simp)
    | cons a as =>
      by_cases hfa : isFloatingPoint a = true
      · have hany2 : (ks2.zip as).any badPair = true := by
          rw [List.zip_cons_cons, List.any_cons] at hany
          simpa [badPair, hfa] using hany
        have hlen2 : ks2.length = as.length := by
          simp only [List.length_cons] at hlen
          omega
        rcases ih ks2 hpd as hlen2 hany2 with ⟨e, he, hme⟩
        exact ⟨e, by rw [check_printf_dirF, if_pos hfa]; exact he, hme⟩
      · have hfa2 : isFloatingPoint a = false := Bool.not_eq_true _ ▸ Bool.of_not_eq_true hfa
        exact ⟨.notFloatingPoint,
          by rw [check_printf_dirF, if_neg (by simp [hfa2])], rfl⟩
  | case5 r ih =>
    intro ks hks args hlen hany
    rw [parseDirs_dirG] at hks
    rcases Option.map_eq_some'.mp hks with ⟨ks2, hpd, hcons⟩
    subst hcons
    cases args with
    | nil => exact absurd hlen (by simp)
    | cons a as =>
      by_cases hfa : isFloatingPoint a = true
      · have hany2 : (ks2.zip as).any badPair = true := by
          rw [List.zip_cons_cons, List.any_cons] at hany
          simpa [badPair, hfa] using hany
        have hlen2 : ks2.length = as.length := by
          simp only [List.length_cons] at hlen
          omega
        rcases ih ks2 hpd as hlen2 hany2 with ⟨e, he, hme⟩
        exact ⟨e, by rw [check_printf_dirG, if_pos hfa]; exact he, hme⟩
      · have hfa2 : isFloatingPoint a = false := Bool.not_eq_true _ ▸ Bool.of_not_eq_true hfa
        exact ⟨.notFloatingPoint,
          by rw [check_printf_dirG, if_neg (by simp [hfa2])], rfl⟩
  | case6 r ih =>
    intro ks hks args hlen hany
    rw [parseDirs_dirD] at hks
    rcases Option.map_eq_some'.mp hks with ⟨ks2, hpd, hcons⟩
    subst hcons
    cases args with
    | nil => exact absurd hlen (by simp)
    | cons a as =>
      by_cases hia : isIntegral a = true
      · have hany2 : (ks2.zip as).any badPair = true := by
          rw [List.zip_cons_cons, List.any_cons] at hany
          simpa [badPair, hia] using hany
        have hlen2 : ks2.length = as.length := by
          simp only [List.length_cons] at hlen
          omega
        rcases ih ks2 hpd as hlen2 hany2 with ⟨e, he, hme⟩
        exact ⟨e, by rw [check_printf_dirD, if_pos hia]; exact he, hme⟩
      · have hia2 : isIntegral a = false := Bool.not_eq_true _ ▸ Bool.of_not_eq_true hia
        exact ⟨.notIntegral,
          by rw [check_printf_dirD, if_neg (by simp [hia2])], rfl⟩
  | case7 r ih =>
    intro ks hks args hlen hany
    rw [parseDirs_dirS] at hks
    rcases Option.map_eq_some'.mp hks with ⟨ks2, hpd, hcons⟩
    subst hcons
    cases args with
    | nil => exact absurd hlen (by simp)
    | cons a as =>
      have hany2 : (ks2.zip as).any badPair = true := by
        rw [List.zip_cons_cons, List.any_cons] at hany
        simpa [badPair] using hany
      have hlen2 : ks2.length = as.length := by
        simp only [List.length_cons] at hlen
        omega
      rcases ih ks2 hpd as hlen2 hany2 with ⟨e, he, hme⟩
      exact ⟨e, by rw [check_printf_dirS]; exact he, hme⟩
  | case8 head tail h1 h2 h3 h4 h5 =>
    intro ks hks args hlen hany
    rw [parseDirs_dirBad head tail h1 h2 h3 h4 h5] at hks
    exact absurd hks (by simp)
  | case9 head r h1 h2 h3 h4 h5 h6 h7 ih =>
    intro ks hks args hlen hany
    have hc : head ≠ '%' := by
      intro hh
      cases r with
      | nil => exact h1 hh rfl
      | cons x xs => exact h7 x xs hh rfl
    rw [parseDirs_cons head r hc] at hks
    cases args with
    | nil =>
      rw [List.zip_nil_right] at hany
      exact absurd hany (by simp)
    | cons a as =>
      rcases ih ks hks (a :: as) hlen hany with ⟨e, he, hme⟩
      exact ⟨e, by rw [check_printf_cons head r a as hc]; exact he, hme⟩

theorem toLong_fits (v : Int) (h1 : -9223372036854775808 ≤ v)
    (h2 : v < 9223372036854775808) : toLong v = v := by
  unfold toLong Int.bmod
  simp only []
  norm_num
  split <;> omega

theorem safe_printf_of_check_ok (f : List Char) (ts : List RawArg)
    (h : check_printf f (ts.map ValidateArgument) = .ok ()) :
    safe_printf f ts = .ok (printfModel f (ts.map ValidateArgument)) := by
  unfold safe_printf
  rw [h]

theorem safe_printf_of_check_error (f : List Char) (ts : List RawArg) (e : Err)
    (h : check_printf f (ts.map ValidateArgument) = .error e) :
    safe_printf f ts = .error e := by
  unfold safe_printf
  rw [h]

theorem check_ok_of_safe_ok (f : List Char) (ts : List RawArg) (o : Option (List Char))
    (h : safe_printf f ts = .ok o) :
    check_printf f (ts.map ValidateArgument) = .ok () := by
  unfold safe_printf at h
  cases hcc : check_printf f (ts.map ValidateArgument) with
  | error e =>
    rw [hcc] at h
    exact absurd h (fun hh => Except.noConfusion hh)
  | ok u =>
    cases u
    rfl

/-- C1.  The claim says a `%s` directive whose argument is not text-like
raises `DirectiveArgumentMismatch`.  The code instead tests
`!std::is_object<char*>::value || !std::is_object<std::string>::value`,
which is identically false, so the `%s` case accepts every argument: with
template `"%s"` and the integral argument `3` the scan returns normally
and the call is forwarded to `printf` (whose behavior there is
undefined, modelled as output `none`). -/
theorem claim_C1_string_check_vacuous :
    check_printf ['%', 's'] [Arg.longArg 3] = .ok () ∧
    safe_printf ['%', 's'] [RawArg.intRaw 32 true 3] = .ok none := by decide

/-- C2 counterexample.  A call with more arguments than directives is
accepted and produces output: template `"hi"` with one integer argument
succeeds, refuting the claim that every arity violation raises a
reportable failure. -/
theorem claim_C2_counterexample :
    safe_printf ['h', 'i'] [RawArg.intRaw 32 true 1] = .ok (some ['h', 'i']) := by decide

/-- C2, amended.  More directives than arguments always raises a
condition; but in the other direction the scan stops at the end of the
template, so appending extra arguments to an accepted call leaves it
accepted (the excess is silently ignored). -/
theorem claim_C2_arity :
    (∀ (f : List Char) (ts : List RawArg), countDirectives f > ts.length →
        ∃ e, safe_printf f ts = .error e) ∧
    (∀ (f : List Char) (ts extra : List RawArg) (o : Option (List Char)),
        safe_printf f ts = .ok o → ∃ o2, safe_printf f (ts ++ extra) = .ok o2) := by
  constructor
  · intro f ts h
    rcases check_printf_arity f (ts.map ValidateArgument)
        (by rw [List.length_map]; exact h) with ⟨e, he⟩
    exact ⟨e, safe_printf_of_check_error f ts e he⟩
  · intro f ts extra o h
    have hc := check_ok_of_safe_ok f ts o h
    have hc2 := check_printf_append f (ts.map ValidateArgument) hc (extra.map ValidateArgument)
    rw [← List.map_append] at hc2
    exact ⟨printfModel f ((ts ++ extra).map ValidateArgument),
      safe_printf_of_check_ok f (ts ++ extra) hc2⟩

theorem claim_C2_arity_witness :
    (∃ e, safe_printf ['%', 'd'] [] = .error e) ∧
    (∃ o2, safe_printf ['h', 'i']
        ([RawArg.intRaw 32 true 1] ++ [RawArg.intRaw 32 true 2]) = .ok o2) :=
  ⟨claim_C2_arity.1 ['%', 'd'] [] (by decide),
   claim_C2_arity.2 ['h', 'i'] [RawArg.intRaw 32 true 1] [RawArg.intRaw 32 true 2]
     (some ['h', 'i']) (by decide)⟩

/-- C3.  In a call whose template parses to a directive-kind sequence in
one-to-one correspondence with the arguments, if some `%d` directive's
corresponding argument is not of integral category then the call raises
one of the `DirectiveArgumentMismatch` conditions. -/
theorem claim_C3_integral_mismatch (f : List Char) (ts : List RawArg) (ks : List Kind)
    (hp : parseDirs f = some ks) (hlen : ks.length = ts.length)
    (hbad : ((ks.zip (ts.map ValidateArgument)).any
        fun p => p.1 == Kind.intK && !(isIntegral p.2)) = true) :
    ∃ e, safe_printf f ts = .error e ∧ isMismatchErr e = true := by
  have hlen2 : ks.length = (ts.map ValidateArgument).length := by
    rw [List.length_map]
    exact hlen
  have hany : ((ks.zip (ts.map ValidateArgument)).any badPair) = true := by
    rcases List.any_eq_true.mp hbad with ⟨p, hpmem, hpp⟩
    refine List.any_eq_true.mpr ⟨p, hpmem, ?_⟩
    simp only [badPair]
    rw [Bool.or_eq_true]
    exact Or.inl hpp
  rcases check_printf_mismatchAny f ks hp (ts.map ValidateArgument) hlen2 hany with ⟨e, he, hme⟩
  exact ⟨e, safe_printf_of_check_error f ts e he, hme⟩

theorem claim_C3_witness :
    ∃ e, safe_printf ['%', 'd', '%', 's', '%', 'd']
        [RawArg.stringRaw ['f', 'o', 'o'], RawArg.charPtrRaw ['b', 'a', 'r'],
          RawArg.intRaw 32 true 3] = .error e ∧ isMismatchErr e = true :=
  claim_C3_integral_mismatch ['%', 'd', '%', 's', '%', 'd']
    [RawArg.stringRaw ['f', 'o', 'o'], RawArg.charPtrRaw ['b', 'a', 'r'],
      RawArg.intRaw 32 true 3]
    [Kind.intK, Kind.strK, Kind.intK] (by decide) (by decide) (by decide)

/-- C4.  Validation runs before any substitution: whenever the scan
throws, `safe_printf` propagates exactly that condition and the
underlying formatting routine is never reached, so the call produces no
output, complete or partial. -/
theorem claim_C4_no_output_on_error (f : List Char) (ts : List RawArg) (e : Err)
    (h : check_printf f (ts.map ValidateArgument) = .error e) :
    safe_printf f ts = .error e :=
  safe_printf_of_check_error f ts e h

theorem claim_C4_witness :
    safe_printf ['%', 'd'] [RawArg.stringRaw ['f', 'o', 'o']] = .error Err.notIntegral :=
  claim_C4_no_output_on_error ['%', 'd'] [RawArg.stringRaw ['f', 'o', 'o']]
    Err.notIntegral (by decide)

/-- C5.  When the template's directive-kind sequence exactly matches the
category sequence of the (normalized) arguments, the call raises nothing
and returns precisely the output of the underlying platform routine on
the same canonical arguments. -/
theorem claim_C5_match_succeeds (f : List Char) (ts : List RawArg) (ks : List Kind)
    (hp : parseDirs f = some ks)
    (hm : kindsMatch ks (ts.map ValidateArgument) = true) :
    ∃ out, safe_printf f ts = .ok (some out) ∧
      printfModel f (ts.map ValidateArgument) = some out := by
  rcases check_printf_kindsMatch f ks hp (ts.map ValidateArgument) hm with ⟨hok, out, ho⟩
  exact ⟨out, by rw [safe_printf_of_check_ok f ts hok, ho], ho⟩

theorem claim_C5_witness :
    safe_printf ['%', 's', '%', 's', '%', 'd', '\n']
        [RawArg.stringRaw ['f', 'o', 'o'], RawArg.charPtrRaw ['b', 'a', 'r'],
          RawArg.intRaw 32 true 3] =
      .ok (some ['f', 'o', 'o', 'b', 'a', 'r', '3', '\n']) := by
  rcases claim_C5_match_succeeds ['%', 's', '%', 's', '%', 'd', '\n']
      [RawArg.stringRaw ['f', 'o', 'o'], RawArg.charPtrRaw ['b', 'a', 'r'],
        RawArg.intRaw 32 true 3]
      [Kind.strK, Kind.strK, Kind.intK] (by decide) (by decide) with ⟨out, h1, h2⟩
  have h3 : printfModel ['%', 's', '%', 's', '%', 'd', '\n']
      ([RawArg.stringRaw ['f', 'o', 'o'], RawArg.charPtrRaw ['b', 'a', 'r'],
        RawArg.intRaw 32 true 3].map ValidateArgument) =
      some ['f', 'o', 'o', 'b', 'a', 'r', '3', '\n'] := by decide
  rw [h1, Option.some.inj (h2.symm.trans h3)]

/-- C6.  A template of literal text and `%%` escapes only, called with no
arguments, raises nothing and outputs the template with each `%%`
collapsed to `%`. -/
theorem claim_C6_literal_template (f : List Char) (h : literalOnly f = true) :
    safe_printf f [] = .ok (some (unescape f)) := by
  have hok : check_printf f (([] : List RawArg).map ValidateArgument) = .ok () :=
    check_printf_literalOnly f h []
  rw [safe_printf_of_check_ok f [] hok]
  rw [show (([] : List RawArg).map ValidateArgument) = [] from rfl]
  rw [printfModel_literalOnly f h]

theorem claim_C6_witness :
    safe_printf ['a', '%', '%', 'b'] [] = .ok (some ['a', '%', 'b']) :=
  (claim_C6_literal_template ['a', '%', '%', 'b'] (by decide)).trans (by decide)

/-- C7 counterexample.  Template `"%q"` contains a `%` followed by a
conversion character outside the recognized set, but a call with no
arguments raises the base scan's generic `"Bad format"` condition, not
`UnrecognizedDirective` (`"Invalid format character"`). -/
theorem claim_C7_counterexample :
    safe_printf ['%', 'q'] [] = .error Err.badFormat ∧
    (Err.badFormat = Err.invalidFormatChar → False) := by decide

/-- C7, amended.  A template containing a `%` followed by a conversion
character outside `{f, g, d, s, %}` is never accepted: the call always
raises a condition — `UnrecognizedDirective` when the argument-consuming
scan reaches that directive first, and otherwise an earlier fault's
condition or the base scan's `"Bad format"`. -/
theorem claim_C7_unrecognized (f : List Char) (ts : List RawArg)
    (h : containsBadDirective f = true) : ∃ e, safe_printf f ts = .error e := by
  rcases check_printf_badDirective f (ts.map ValidateArgument) h with ⟨e, he⟩
  exact ⟨e, safe_printf_of_check_error f ts e he⟩

theorem claim_C7_witness :
    ∃ e, safe_printf ['%', 'q'] [RawArg.intRaw 32 true 1] = .error e :=
  claim_C7_unrecognized ['%', 'q'] [RawArg.intRaw 32 true 1] (by decide)

/-- C8.  In a call whose template parses to a directive-kind sequence in
one-to-one correspondence with the arguments, if some `%f` or `%g`
directive's corresponding argument is not of floating-point category then
the call raises one of the `DirectiveArgumentMismatch` conditions. -/
theorem claim_C8_float_mismatch (f : List Char) (ts : List RawArg) (ks : List Kind)
    (hp : parseDirs f = some ks) (hlen : ks.length = ts.length)
    (hbad : ((ks.zip (ts.map ValidateArgument)).any
        fun p => p.1 == Kind.floatK && !(isFloatingPoint p.2)) = true) :
    ∃ e, safe_printf f ts = .error e ∧ isMismatchErr e = true := by
  have hlen2 : ks.length = (ts.map ValidateArgument).length := by
    rw [List.length_map]
    exact hlen
  have hany : ((ks.zip (ts.map ValidateArgument)).any badPair) = true := by
    rcases List.any_eq_true.mp hbad with ⟨p, hpmem, hpp⟩
    refine List.any_eq_true.mpr ⟨p, hpmem, ?_⟩
    simp only [badPair]
    rw [Bool.or_eq_true]
    exact Or.inr hpp
  rcases check_printf_mismatchAny f ks hp (ts.map ValidateArgument) hlen2 hany with ⟨e, he, hme⟩
  exact ⟨e, safe_printf_of_check_error f ts e he, hme⟩

theorem claim_C8_witness :
    ∃ e, safe_printf ['%', 'f'] [RawArg.intRaw 32 true 1] = .error e ∧
      isMismatchErr e = true :=
  claim_C8_float_mismatch ['%', 'f'] [RawArg.intRaw 32 true 1] [Kind.floatK]
    (by decide) (by decide) (by decide)

/-- C9.  A template whose final character is a single unescaped `%` is
never accepted by the validation scan: whatever the arguments, the scan
reads the terminator as the conversion character and raises a condition
(`"Invalid format character"` with arguments remaining, `"Bad format"`
in the base overload). -/
theorem claim_C9_trailing_percent (f : List Char) (args : List Arg)
    (h : hasTrailingLonePercent f = true) : ∃ e, check_printf f args = .error e :=
  check_printf_trailingPercent f args h

theorem claim_C9_witness :
    ∃ e, check_printf ['a', '%'] [] = .error e :=
  claim_C9_trailing_percent ['a', '%'] [] (by decide)

/-- C10 counterexample.  The integral normalizer does not preserve every
value: `2^63` is a valid value of the 64-bit unsigned integral type, but
`ValidateArgument` returns the `long` `-2^63`, which differs from the
original value. -/
theorem claim_C10_counterexample :
    intFits 64 false 9223372036854775808 = true ∧
    ValidateArgument (RawArg.intRaw 64 false 9223372036854775808) =
      Arg.longArg (-9223372036854775808) ∧
    (Arg.longArg (-9223372036854775808) = Arg.longArg 9223372036854775808 → False) := by
  decide

/-- C10, amended.  The normalizer maps every argument to its canonical
category, preserving the value whenever it is representable in the
target: an integral value within `long`'s range becomes that same `long`
(values outside the range are reduced modulo `2^64` by `toLong`), a
`float`/`double` value becomes the equal `double`, a pointer is returned
unchanged at its own type, and a `std::string` becomes the pointer to its
character data. -/
theorem claim_C10_normalizer :
    (∀ (w : Nat) (sg : Bool) (v : Int), -9223372036854775808 ≤ v →
        v < 9223372036854775808 →
        ValidateArgument (RawArg.intRaw w sg v) = Arg.longArg v) ∧
    (∀ (w : Nat) (sg : Bool) (v : Int),
        ValidateArgument (RawArg.intRaw w sg v) = Arg.longArg (toLong v)) ∧
    (∀ (d : Bool) (v : Rat), ValidateArgument (RawArg.floatRaw d v) = Arg.doubleArg v) ∧
    (∀ p, ValidateArgument (RawArg.charPtrRaw p) = Arg.charPtr p) ∧
    (∀ a, ValidateArgument (RawArg.otherPtrRaw a) = Arg.otherPtr a) ∧
    (∀ st, ValidateArgument (RawArg.stringRaw st) = Arg.charPtr st) := by
  refine ⟨?_, fun w sg v => rfl, fun d v => rfl, fun p => rfl, fun a => rfl, fun st => rfl⟩
  intro w sg v h1 h2
  show Arg.longArg (toLong v) = Arg.longArg v
  rw [toLong_fits v h1 h2]

theorem claim_C10_witness :
    ValidateArgument (RawArg.intRaw 32 true 3) = Arg.longArg 3 ∧
    ValidateArgument (RawArg.floatRaw true 5) = Arg.doubleArg 5 ∧
    ValidateArgument (RawArg.stringRaw ['f', 'o', 'o']) = Arg.charPtr ['f', 'o', 'o'] :=
  ⟨claim_C10_normalizer.1 32 true 3 (by decide) (by decide),
   claim_C10_normalizer.2.2.1 true 5,
   claim_C10_normalizer.2.2.2.2.2 ['f', 'o', 'o']⟩

end SafePrintf
